import Mathlib

/-!
Verification of the CHIPSEC module `chipsec/modules/common/smm_code_chk.py`.

The module reads the MSR_SMM_FEATURE_CONTROL register on every logical CPU
thread, decodes the LOCK and SMM_Code_Chk_En fields, classifies each thread's
state, and aggregates the per-thread results into a single verdict.

The embedding keeps the Python structure:
- `Env` packages the external collaborators (`self.cs`): the thread count,
  the register accessor (which can fail with `HWAccessViolationError`,
  modelled as `none`), and bit-field extraction.
- Each operation returns, alongside its result, the list of thread ids whose
  register it read, in order, so properties about which reads occur are
  statable.
- `Except Fatal` models uncaught Python exceptions escaping the module:
  `hwAccessViolation` for `HWAccessViolationError`, `indexError` for the
  `results[0]` access on an empty list.
-/

/-- The five module result values used by the module
(`ModuleResult.PASSED/FAILED/WARNING/ERROR/NOTAPPLICABLE`). -/
inductive Verdict where
  | Passed
  | Failed
  | Warning
  | Error
  | NotApplicable
deriving DecidableEq, Repr

/-- Exceptions that escape the module's own code uncaught. -/
inductive Fatal where
  | hwAccessViolation
  | indexError
deriving DecidableEq, Repr

/-- The external collaborators reached through `self.cs`:
`read_register name tid` (`none` models a raised `HWAccessViolationError`),
`get_register_field name value field`, and `msr.get_cpu_thread_count ()`. -/
structure Env where
  threadCount : Nat
  readRegister : String → Nat → Option Nat
  getField : String → Nat → String → Nat

/-- Modelled from the spec: `self.cs.read_register` defaults to thread 0 when
no thread id is passed (the accessor's code is outside this module); the gate
probes the representative thread 0. -/
def defaultThread : Nat := 0

/-- `is_supported`: probe one read of MSR_SMM_FEATURE_CONTROL; on
`HWAccessViolationError` record `ModuleResult.NOTAPPLICABLE` into `self.res`
(the `Option Verdict` component) and return `false`; otherwise return `true`
and discard the value read.  The second component of the outer pair is the
list of thread ids read. -/
def is_supported (env : Env) : (Bool × Option Verdict) × List Nat :=
  match env.readRegister "MSR_SMM_FEATURE_CONTROL" defaultThread with
  | none => ((false, some Verdict.NotApplicable), [defaultThread])
  | some _ => ((true, none), [defaultThread])

/-- `_check_SMM_Code_Chk_En`: read the register on `thread_id`, decode the
`LOCK` and `SMM_Code_Chk_En` fields, and classify.  A failed read is not
caught here: it escapes as `Fatal.hwAccessViolation`. -/
def _check_SMM_Code_Chk_En (env : Env) (thread_id : Nat) :
    Except Fatal Verdict × List Nat :=
  match env.readRegister "MSR_SMM_FEATURE_CONTROL" thread_id with
  | none => (Except.error Fatal.hwAccessViolation, [thread_id])
  | some regval =>
    let lock := env.getField "MSR_SMM_FEATURE_CONTROL" regval "LOCK"
    let code_chk_en := env.getField "MSR_SMM_FEATURE_CONTROL" regval "SMM_Code_Chk_En"
    if 1 = code_chk_en then
      if 1 = lock then
        (Except.ok Verdict.Passed, [thread_id])
      else
        (Except.ok Verdict.Failed, [thread_id])
    else
      (Except.ok Verdict.Warning, [thread_id])

/-- The loop `for tid in range(n): results.append(self._check_SMM_Code_Chk_En(tid))`:
evaluates threads 0..n-1 in order, appending each verdict; an exception raised
at thread `t` aborts the loop after the reads for threads 0..t. -/
def collectResults (env : Env) : Nat → Except Fatal (List Verdict) × List Nat
  | 0 => (Except.ok [], [])
  | n + 1 =>
    match collectResults env n with
    | (Except.error e, tr) => (Except.error e, tr)
    | (Except.ok rs, tr) =>
      match _check_SMM_Code_Chk_En env n with
      | (Except.error e, tr2) => (Except.error e, tr ++ tr2)
      | (Except.ok r, tr2) => (Except.ok (rs ++ [r]), tr ++ tr2)

/-- `all(_ == results[0] for _ in results)`: Python's lazy generator never
evaluates `results[0]` when `results` is empty, so the check is vacuously
true there. -/
def allEqFirst : List Verdict → Bool
  | [] => true
  | r :: rs => (r :: rs).all (fun x => x = r)

/-- `check_SMM_Code_Chk_En`: collect per-thread results; if they are not all
equal to the first, return `ModuleResult.ERROR`; otherwise `res = results[0]`
(an `IndexError` on an empty list) and return it.  Logging calls are side
effects with no influence on the result and are omitted. -/
def check_SMM_Code_Chk_En (env : Env) : Except Fatal Verdict × List Nat :=
  match collectResults env env.threadCount with
  | (Except.error e, tr) => (Except.error e, tr)
  | (Except.ok results, tr) =>
    if ¬ allEqFirst results then
      (Except.ok Verdict.Error, tr)
    else
      match results with
      | [] => (Except.error Fatal.indexError, tr)
      | res :: _ => (Except.ok res, tr)

/-- Modelled from the spec: the module framework (outside this file's source)
calls `is_supported` first and, when it returns `false`, skips `run` entirely
and reports the recorded result (`NotApplicable`); when it returns `true` it
runs `check_SMM_Code_Chk_En`. -/
def runModule (env : Env) : Except Fatal Verdict × List Nat :=
  match is_supported env with
  | ((true, _), tr) =>
    let c := check_SMM_Code_Chk_En env
    (c.1, tr ++ c.2)
  | ((false, r), tr) => (Except.ok (r.getD Verdict.NotApplicable), tr)

/-- A register layout for concrete test environments: LOCK is bit 0 and
SMM_Code_Chk_En is bit 2 of the value. -/
def testGetField (_name : String) (v : Nat) (f : String) : Nat :=
  if f = "LOCK" then v % 2 else v / 4 % 2

/-- Environment where every thread reads value 5 (LOCK=1, SMM_Code_Chk_En=1). -/
def envAllPass : Env :=
  { threadCount := 2, readRegister := fun _ _ => some 5, getField := testGetField }

/-- Environment where thread 0 reads 5 (Passed) and thread 1 reads 4 (Failed). -/
def envMixed : Env :=
  { threadCount := 2
    readRegister := fun _ t => some (if t = 0 then 5 else 4)
    getField := testGetField }

/-- Environment with zero threads. -/
def envZero : Env :=
  { threadCount := 0, readRegister := fun _ _ => some 5, getField := testGetField }

/-- Environment where every register read raises `HWAccessViolationError`. -/
def envDenied : Env :=
  { threadCount := 2, readRegister := fun _ _ => none, getField := testGetField }

/-- Environment where thread 0 reads fine but thread 1's read raises. -/
def envLateFail : Env :=
  { threadCount := 2
    readRegister := fun _ t => if t = 1 then none else some 5
    getField := testGetField }

/-- Environment equal to `envAllPass` extensionally but written differently. -/
def envAllPassAlt : Env :=
  { threadCount := 2
    readRegister := fun _ t => some (if t = t then 5 else 7)
    getField := testGetField }

/-! ### Helper lemmas about the evaluator and the collection loop -/

lemma eval_trace (env : Env) (t : Nat) : (_check_SMM_Code_Chk_En env t).2 = [t] := by
  unfold _check_SMM_Code_Chk_En
  cases env.readRegister "MSR_SMM_FEATURE_CONTROL" t with
  | none => rfl
  | some v =>
    dsimp only
    split
    · split <;> rfl
    · rfl

lemma eval_pair (env : Env) (t : Nat) (r : Except Fatal Verdict)
    (h : (_check_SMM_Code_Chk_En env t).1 = r) :
    _check_SMM_Code_Chk_En env t = (r, [t]) := by
  have h2 := eval_trace env t
  cases hc : _check_SMM_Code_Chk_En env t
  rw [hc] at h h2
  simp_all

lemma eval_ok_of_read (env : Env) (t : Nat)
    (h : (env.readRegister "MSR_SMM_FEATURE_CONTROL" t).isSome) :
    ∃ r, (_check_SMM_Code_Chk_En env t).1 = Except.ok r := by
  rcases Option.isSome_iff_exists.mp h with ⟨v, hv⟩
  unfold _check_SMM_Code_Chk_En
  rw [hv]
  dsimp only
  split
  · split
    · exact ⟨_, rfl⟩
    · exact ⟨_, rfl⟩
  · exact ⟨_, rfl⟩

lemma eval_result_ne_error (env : Env) (t : Nat) (r : Verdict)
    (h : (_check_SMM_Code_Chk_En env t).1 = Except.ok r) : r ≠ Verdict.Error := by
  unfold _check_SMM_Code_Chk_En at h
  cases hv : env.readRegister "MSR_SMM_FEATURE_CONTROL" t with
  | none => rw [hv] at h; exact absurd h (by simp)
  | some v =>
    rw [hv] at h
    dsimp only at h
    split at h
    · split at h
      · cases h; intro hE; cases hE
      · cases h; intro hE; cases hE
    · cases h; intro hE; cases hE

lemma collect_ok (env : Env) (f : Nat → Verdict) (n : Nat)
    (h : ∀ t, t < n → (_check_SMM_Code_Chk_En env t).1 = Except.ok (f t)) :
    collectResults env n = (Except.ok ((List.range n).map f), List.range n) := by
  induction n with
  | zero => rfl
  | succ n ih =>
    have hstep : _check_SMM_Code_Chk_En env n = (Except.ok (f n), [n]) :=
      eval_pair env n _ (h n (Nat.lt_succ_self n))
    have ih' := ih (fun t ht => h t (Nat.lt_trans ht (Nat.lt_succ_self n)))
    rw [show collectResults env (n + 1) =
        (match collectResults env n with
        | (Except.error e, tr) => (Except.error e, tr)
        | (Except.ok rs, tr) =>
          match _check_SMM_Code_Chk_En env n with
          | (Except.error e, tr2) => (Except.error e, tr ++ tr2)
          | (Except.ok r, tr2) => (Except.ok (rs ++ [r]), tr ++ tr2)) from rfl,
      ih', hstep]
    simp [List.range_succ]

lemma collect_mem (env : Env) (n : Nat) (rs : List Verdict)
    (h : (collectResults env n).1 = Except.ok rs) :
    ∀ r ∈ rs, ∃ t, t < n ∧ (_check_SMM_Code_Chk_En env t).1 = Except.ok r := by
  induction n generalizing rs with
  | zero =>
    have : rs = [] := by
      have hz : (collectResults env 0).1 = Except.ok [] := rfl
      rw [hz] at h
      exact (Except.ok.inj h).symm
    subst this
    intro r hr
    cases hr
  | succ n ih =>
    intro r hr
    rw [show collectResults env (n + 1) =
        (match collectResults env n with
        | (Except.error e, tr) => (Except.error e, tr)
        | (Except.ok rs, tr) =>
          match _check_SMM_Code_Chk_En env n with
          | (Except.error e, tr2) => (Except.error e, tr ++ tr2)
          | (Except.ok r, tr2) => (Except.ok (rs ++ [r]), tr ++ tr2)) from rfl] at h
    cases hc : collectResults env n with
    | mk a tr =>
      rw [hc] at h
      cases a with
      | error e => exact absurd h (by simp)
      | ok rs' =>
        cases he : _check_SMM_Code_Chk_En env n with
        | mk b tr2 =>
          rw [he] at h
          cases b with
          | error e => exact absurd h (by simp)
          | ok r' =>
            dsimp only at h
            have hrs : rs = rs' ++ [r'] := (Except.ok.inj h).symm
            subst hrs
            rcases List.mem_append.mp hr with hmem | hmem
            · rcases ih rs' (by rw [hc]) r hmem with ⟨t, ht, hev⟩
              exact ⟨t, Nat.lt_trans ht (Nat.lt_succ_self n), hev⟩
            · have : r = r' := by simpa using hmem
              subst this
              exact ⟨n, Nat.lt_succ_self n, by rw [he]⟩

lemma collect_succ_eq (env : Env) (n : Nat) :
    collectResults env (n + 1) =
      (match collectResults env n with
      | (Except.error e, tr) => (Except.error e, tr)
      | (Except.ok rs, tr) =>
        match _check_SMM_Code_Chk_En env n with
        | (Except.error e, tr2) => (Except.error e, tr ++ tr2)
        | (Except.ok r, tr2) => (Except.ok (rs ++ [r]), tr ++ tr2)) := rfl

lemma collect_error_mono (env : Env) (n : Nat) (e : Fatal)
    (h : (collectResults env n).1 = Except.error e) :
    ∀ m, n ≤ m → (collectResults env m).1 = Except.error e := by
  intro m hm
  induction m with
  | zero =>
    have : n = 0 := Nat.le_zero.mp hm
    subst this
    exact h
  | succ m ih =>
    rcases Nat.lt_or_ge n (m + 1) with hlt | hge
    · have hprev := ih (Nat.lt_succ_iff.mp hlt)
      rw [collect_succ_eq]
      cases hc : collectResults env m with
      | mk a tr =>
        rw [hc] at hprev
        cases a with
        | error e' => cases hprev; rfl
        | ok rs => exact absurd hprev (by simp)
    · have : n = m + 1 := Nat.le_antisymm hm hge
      subst this
      exact h

lemma collect_error_of_fail (env : Env) (t : Nat) (rs : List Verdict)
    (hok : (collectResults env t).1 = Except.ok rs)
    (hfail : (_check_SMM_Code_Chk_En env t).1 = Except.error Fatal.hwAccessViolation) :
    (collectResults env (t + 1)).1 = Except.error Fatal.hwAccessViolation := by
  rw [collect_succ_eq]
  cases hc : collectResults env t with
  | mk a tr =>
    rw [hc] at hok
    cases a with
    | error e => exact absurd hok (by simp)
    | ok rs' =>
      have hpair := eval_pair env t _ hfail
      rw [hpair]

lemma collect_ok_of_reads (env : Env) (n : Nat)
    (h : ∀ s, s < n → (env.readRegister "MSR_SMM_FEATURE_CONTROL" s).isSome) :
    ∃ rs, (collectResults env n).1 = Except.ok rs := by
  induction n with
  | zero => exact ⟨[], rfl⟩
  | succ n ih =>
    rcases ih (fun s hs => h s (Nat.lt_trans hs (Nat.lt_succ_self n))) with ⟨rs, hrs⟩
    rcases eval_ok_of_read env n (h n (Nat.lt_succ_self n)) with ⟨r, hr⟩
    rw [collect_succ_eq]
    cases hc : collectResults env n with
    | mk a tr =>
      rw [hc] at hrs
      cases a with
      | error e => exact absurd hrs (by simp)
      | ok rs' =>
        rw [eval_pair env n _ hr]
        exact ⟨rs' ++ [r], rfl⟩

lemma collect_trace_shape (env : Env) (n : Nat) :
    ∃ m, m ≤ n ∧ (collectResults env n).2 = List.range m ∧
      (0 < n → 0 < m) ∧
      ((∃ rs, (collectResults env n).1 = Except.ok rs) → m = n) := by
  induction n with
  | zero =>
    exact ⟨0, Nat.le_refl 0, rfl, fun h => absurd h (Nat.lt_irrefl 0), fun _ => rfl⟩
  | succ n ih =>
    rcases ih with ⟨m, hmn, htr, hpos, hok⟩
    rw [collect_succ_eq]
    cases hc : collectResults env n with
    | mk a tr =>
      rw [hc] at htr hok
      cases a with
      | error e =>
        refine ⟨m, Nat.le_succ_of_le hmn, htr, ?_, ?_⟩
        · intro _
          have hn : 0 < n := by
            rcases Nat.eq_zero_or_pos n with h0 | h0
            · subst h0
              have : collectResults env 0 = (Except.ok ([] : List Verdict), ([] : List Nat)) := rfl
              rw [this] at hc
              exact absurd (congrArg Prod.fst hc) (by simp)
            · exact h0
          exact hpos hn
        · intro ⟨rs, hrs⟩
          exact absurd hrs (by simp)
      | ok rs =>
        have hmn' : m = n := hok ⟨rs, rfl⟩
        rw [hmn'] at htr
        have htr' : tr = List.range n := by simpa using htr
        subst htr'
        cases he : _check_SMM_Code_Chk_En env n with
        | mk b tr2 =>
          have htr2 : tr2 = [n] := by
            have := eval_trace env n
            rw [he] at this
            exact this
          subst htr2
          cases b with
          | error e =>
            refine ⟨n + 1, Nat.le_refl _, ?_, fun _ => Nat.succ_pos n, fun _ => rfl⟩
            simpa [htr] using (List.range_succ (n := n)).symm
          | ok r =>
            refine ⟨n + 1, Nat.le_refl _, ?_, fun _ => Nat.succ_pos n, fun _ => rfl⟩
            simpa [htr] using (List.range_succ (n := n)).symm

lemma allEqFirst_cons_true (r : Verdict) (rs : List Verdict)
    (h : allEqFirst (r :: rs) = true) : ∀ a ∈ r :: rs, a = r := by
  intro a ha
  have := List.all_eq_true.mp h a ha
  simpa using this

lemma allEqFirst_of_all_eq (r : Verdict) (rs : List Verdict)
    (h : ∀ a ∈ r :: rs, a = r) : allEqFirst (r :: rs) = true := by
  apply List.all_eq_true.mpr
  intro a ha
  simpa using h a ha

lemma check_trace_eq (env : Env) :
    (check_SMM_Code_Chk_En env).2 = (collectResults env env.threadCount).2 := by
  unfold check_SMM_Code_Chk_En
  cases hc : collectResults env env.threadCount with
  | mk a tr =>
    cases a with
    | error e => rfl
    | ok results =>
      dsimp only
      split
      · rfl
      · cases results <;> rfl

example : (check_SMM_Code_Chk_En envAllPass).1 = Except.ok Verdict.Passed := rfl
example : (check_SMM_Code_Chk_En envMixed).1 = Except.ok Verdict.Error := rfl
example : (check_SMM_Code_Chk_En envZero).1 = Except.error Fatal.indexError := rfl
example : (check_SMM_Code_Chk_En envLateFail).1 = Except.error Fatal.hwAccessViolation := rfl
example : runModule envDenied = (Except.ok Verdict.NotApplicable, [0]) := rfl
example : (runModule envAllPass).2 = [0, 0, 1] := rfl

/-! ### Claim theorems -/

/-- C1: for every thread id, once the register read succeeds and the two decoded
fields are boolean (as the 1-bit register fields are), the evaluator returns
`Passed` exactly when CODE_CHK_EN=1 and LOCK=1, `Failed` exactly when
CODE_CHK_EN=1 and LOCK=0, `Warning` exactly when CODE_CHK_EN=0 (either LOCK),
and never any other Verdict. -/
theorem C1_evaluator_decision_table (env : Env) (tid v : Nat)
    (hread : env.readRegister "MSR_SMM_FEATURE_CONTROL" tid = some v)
    (hc : env.getField "MSR_SMM_FEATURE_CONTROL" v "SMM_Code_Chk_En" ≤ 1)
    (hl : env.getField "MSR_SMM_FEATURE_CONTROL" v "LOCK" ≤ 1) :
    ((_check_SMM_Code_Chk_En env tid).1 = Except.ok Verdict.Passed ↔
      env.getField "MSR_SMM_FEATURE_CONTROL" v "SMM_Code_Chk_En" = 1 ∧
      env.getField "MSR_SMM_FEATURE_CONTROL" v "LOCK" = 1) ∧
    ((_check_SMM_Code_Chk_En env tid).1 = Except.ok Verdict.Failed ↔
      env.getField "MSR_SMM_FEATURE_CONTROL" v "SMM_Code_Chk_En" = 1 ∧
      env.getField "MSR_SMM_FEATURE_CONTROL" v "LOCK" = 0) ∧
    ((_check_SMM_Code_Chk_En env tid).1 = Except.ok Verdict.Warning ↔
      env.getField "MSR_SMM_FEATURE_CONTROL" v "SMM_Code_Chk_En" = 0) ∧
    (∀ r : Verdict, (_check_SMM_Code_Chk_En env tid).1 = Except.ok r →
      r = Verdict.Passed ∨ r = Verdict.Failed ∨ r = Verdict.Warning) := by
  have hc' := Nat.le_one_iff_eq_zero_or_eq_one.mp hc
  have hl' := Nat.le_one_iff_eq_zero_or_eq_one.mp hl
  unfold _check_SMM_Code_Chk_En
  rw [hread]
  rcases hc' with h1 | h1 <;> rcases hl' with h2 | h2 <;>
    simp [h1, h2]

/-- C1 witness: on a concrete environment whose register value decodes to
CODE_CHK_EN=1, LOCK=1, the evaluator returns Passed. -/
theorem C1_witness : (_check_SMM_Code_Chk_En envAllPass 0).1 = Except.ok Verdict.Passed :=
  (C1_evaluator_decision_table envAllPass 0 5 rfl (by decide) (by decide)).1.mpr (by decide)

/-- C2: if every per-thread evaluation succeeds and two threads in range get
different Verdicts, the aggregation returns `Error`, regardless of which
Verdicts differ or how many threads disagree. -/
theorem C2_disagreement_gives_error (env : Env) (f : Nat → Verdict)
    (hok : ∀ t, t < env.threadCount → (_check_SMM_Code_Chk_En env t).1 = Except.ok (f t))
    (i j : Nat) (hi : i < env.threadCount) (hj : j < env.threadCount)
    (hne : f i ≠ f j) :
    (check_SMM_Code_Chk_En env).1 = Except.ok Verdict.Error := by
  have hcol := collect_ok env f env.threadCount hok
  unfold check_SMM_Code_Chk_En
  rw [hcol]
  have hfalse : allEqFirst ((List.range env.threadCount).map f) = false := by
    cases hA : allEqFirst ((List.range env.threadCount).map f) with
    | false => rfl
    | true =>
      exfalso
      obtain ⟨r0, rest, hcons⟩ :
          ∃ r0 rest, (List.range env.threadCount).map f = r0 :: rest := by
        cases hM : (List.range env.threadCount).map f with
        | nil =>
          have : env.threadCount = 0 := by simpa using congrArg List.length hM
          omega
        | cons a b => exact ⟨a, b, rfl⟩
      rw [hcons] at hA
      have hall := allEqFirst_cons_true r0 rest hA
      have hfi : f i ∈ r0 :: rest := by
        rw [← hcons]
        exact List.mem_map_of_mem f (List.mem_range.mpr hi)
      have hfj : f j ∈ r0 :: rest := by
        rw [← hcons]
        exact List.mem_map_of_mem f (List.mem_range.mpr hj)
      exact hne ((hall _ hfi).trans (hall _ hfj).symm)
  simp [hfalse]

/-- C2 witness: two threads decoding to Passed and Failed respectively make the
aggregation return Error. -/
theorem C2_witness : (check_SMM_Code_Chk_En envMixed).1 = Except.ok Verdict.Error :=
  C2_disagreement_gives_error envMixed
    (fun t => if t = 0 then Verdict.Passed else Verdict.Failed)
    (by intro t ht; have ht' : t < 2 := ht; interval_cases t <;> rfl)
    0 1 (by decide) (by decide) (by decide)

/-- C3 counterexample: with zero threads, every per-thread evaluation vacuously
returns Passed, yet the aggregation does not return Passed (it raises an
IndexError), so the claim fails as stated for thread count 0. -/
theorem C3_counterexample :
    (∀ t, t < envZero.threadCount →
      (_check_SMM_Code_Chk_En envZero t).1 = Except.ok Verdict.Passed) ∧
    ¬ (check_SMM_Code_Chk_En envZero).1 = Except.ok Verdict.Passed := by
  constructor
  · intro t ht
    exact absurd ht (by simp [envZero])
  · intro h
    have hz : (check_SMM_Code_Chk_En envZero).1 = Except.error Fatal.indexError := rfl
    rw [hz] at h
    exact Except.noConfusion h

/-- C3 (amended to thread count ≥ 1): if all per-thread evaluations return the
same Verdict V, the aggregation returns V. -/
theorem C3_unanimous_gives_common (env : Env) (V : Verdict)
    (hN : 1 ≤ env.threadCount)
    (hall : ∀ t, t < env.threadCount →
      (_check_SMM_Code_Chk_En env t).1 = Except.ok V) :
    (check_SMM_Code_Chk_En env).1 = Except.ok V := by
  have hcol := collect_ok env (fun _ => V) env.threadCount hall
  unfold check_SMM_Code_Chk_En
  rw [hcol]
  have hmem : ∀ a ∈ (List.range env.threadCount).map (fun _ => V), a = V := by
    intro a ha
    rcases List.mem_map.mp ha with ⟨t, _, ht⟩
    exact ht.symm
  obtain ⟨r0, rest, hcons⟩ :
      ∃ r0 rest, (List.range env.threadCount).map (fun _ => V) = r0 :: rest := by
    cases hM : (List.range env.threadCount).map (fun _ => V) with
    | nil =>
      have : env.threadCount = 0 := by simpa using congrArg List.length hM
      omega
    | cons a b => exact ⟨a, b, rfl⟩
  rw [hcons]
  have hr0 : r0 = V := hmem r0 (hcons ▸ List.mem_cons_self r0 rest)
  have htrue : allEqFirst (r0 :: rest) = true :=
    allEqFirst_of_all_eq r0 rest (fun a ha => ((hcons ▸ hmem) a ha).trans hr0.symm)
  subst hr0
  simp [htrue]

/-- C3 witness: two threads both decoding to Passed give an overall Passed. -/
theorem C3_witness : (check_SMM_Code_Chk_En envAllPass).1 = Except.ok Verdict.Passed :=
  C3_unanimous_gives_common envAllPass Verdict.Passed (by decide)
    (by intro t ht; have ht' : t < 2 := ht; interval_cases t <;> rfl)

/-- C4: when the probe read fails with the access violation, `is_supported`
records `NotApplicable` and returns false, the whole run reports
`NotApplicable` and performs only the single probe read (no per-thread reads);
when the probe read succeeds, `is_supported` returns true regardless of the
value read. -/
theorem C4_applicability_gate (env : Env) :
    (env.readRegister "MSR_SMM_FEATURE_CONTROL" defaultThread = none →
      is_supported env = ((false, some Verdict.NotApplicable), [defaultThread]) ∧
      runModule env = (Except.ok Verdict.NotApplicable, [defaultThread])) ∧
    (∀ v, env.readRegister "MSR_SMM_FEATURE_CONTROL" defaultThread = some v →
      is_supported env = ((true, none), [defaultThread])) := by
  constructor
  · intro h
    constructor
    · simp [is_supported, h]
    · simp [runModule, is_supported, h]
  · intro v h
    simp [is_supported, h]

/-- C4 witness: a concrete inaccessible register yields the not-supported
outcome with only the probe read; a readable one yields supported. -/
theorem C4_witness :
    is_supported envDenied = ((false, some Verdict.NotApplicable), [defaultThread]) ∧
    runModule envDenied = (Except.ok Verdict.NotApplicable, [defaultThread]) ∧
    is_supported envAllPass = ((true, none), [defaultThread]) :=
  ⟨((C4_applicability_gate envDenied).1 rfl).1,
   ((C4_applicability_gate envDenied).1 rfl).2,
   (C4_applicability_gate envAllPass).2 5 rfl⟩

/-- C5: a register read that fails with the access violation during per-thread
evaluation (all earlier threads readable) is not caught: the evaluator and the
aggregation both surface the fatal error instead of any Verdict. -/
theorem C5_late_failure_propagates (env : Env) (t : Nat)
    (ht : t < env.threadCount)
    (hbefore : ∀ s, s < t → (env.readRegister "MSR_SMM_FEATURE_CONTROL" s).isSome)
    (hfail : env.readRegister "MSR_SMM_FEATURE_CONTROL" t = none) :
    (_check_SMM_Code_Chk_En env t).1 = Except.error Fatal.hwAccessViolation ∧
    (check_SMM_Code_Chk_En env).1 = Except.error Fatal.hwAccessViolation := by
  have heval : (_check_SMM_Code_Chk_En env t).1 = Except.error Fatal.hwAccessViolation := by
    unfold _check_SMM_Code_Chk_En
    rw [hfail]
  refine ⟨heval, ?_⟩
  rcases collect_ok_of_reads env t hbefore with ⟨rs, hok⟩
  have h1 := collect_error_of_fail env t rs hok heval
  have h2 := collect_error_mono env (t + 1) _ h1 env.threadCount ht
  cases hc : collectResults env env.threadCount with
  | mk a tr =>
    unfold check_SMM_Code_Chk_En
    rw [hc]
    rw [hc] at h2
    cases a with
    | error e =>
      have he : e = Fatal.hwAccessViolation := by simpa using h2
      subst he
      rfl
    | ok rs' => exact absurd h2 (by simp)

/-- C5 witness: thread 1's read fails after thread 0 read fine; the fatal error
escapes both the evaluator and the aggregation. -/
theorem C5_witness :
    (_check_SMM_Code_Chk_En envLateFail 1).1 = Except.error Fatal.hwAccessViolation ∧
    (check_SMM_Code_Chk_En envLateFail).1 = Except.error Fatal.hwAccessViolation :=
  C5_late_failure_propagates envLateFail 1 (by decide)
    (by intro s hs; have hs' : s < 1 := hs; interval_cases s; rfl) rfl

/-- C6: when every thread evaluates successfully, the collection loop reads each
thread id in [0, threadCount) exactly once (none skipped, none repeated, and no
id out of range), and the collected list has length threadCount with entry i
being thread i's Verdict. -/
theorem C6_exhaustive_evaluation (env : Env) (f : Nat → Verdict)
    (hok : ∀ t, t < env.threadCount →
      (_check_SMM_Code_Chk_En env t).1 = Except.ok (f t)) :
    ∃ rs, collectResults env env.threadCount =
        (Except.ok rs, List.range env.threadCount) ∧
      rs.length = env.threadCount ∧
      (∀ i, i < env.threadCount → rs[i]? = some (f i)) ∧
      (∀ t, t < env.threadCount →
        List.count t (collectResults env env.threadCount).2 = 1) ∧
      (∀ t, env.threadCount ≤ t →
        List.count t (collectResults env env.threadCount).2 = 0) := by
  have hcol := collect_ok env f env.threadCount hok
  refine ⟨(List.range env.threadCount).map f, hcol, by simp, ?_, ?_, ?_⟩
  · intro i hi
    rw [List.getElem?_map, List.getElem?_range hi]
    rfl
  · intro t ht
    rw [hcol]
    exact List.count_eq_one_of_mem (List.nodup_range _) (List.mem_range.mpr ht)
  · intro t ht
    rw [hcol]
    apply List.count_eq_zero_of_not_mem
    simp
    omega

/-- C6 witness: two all-pass threads give the collected list [Passed, Passed]
with read trace [0, 1]. -/
theorem C6_witness :
    ∃ rs, collectResults envAllPass envAllPass.threadCount =
        (Except.ok rs, List.range envAllPass.threadCount) ∧
      rs.length = envAllPass.threadCount ∧
      (∀ i, i < envAllPass.threadCount → rs[i]? = some Verdict.Passed) ∧
      (∀ t, t < envAllPass.threadCount →
        List.count t (collectResults envAllPass envAllPass.threadCount).2 = 1) ∧
      (∀ t, envAllPass.threadCount ≤ t →
        List.count t (collectResults envAllPass envAllPass.threadCount).2 = 0) :=
  C6_exhaustive_evaluation envAllPass (fun _ => Verdict.Passed)
    (by intro t ht; have ht' : t < 2 := ht; interval_cases t <;> rfl)

/-- C7: the per-thread evaluator never returns the Error Verdict, so a
unanimous Error collection is impossible: under the unanimity check the first
entry (the value the aggregation would return) is never Error, making the
aggregator's unanimous-Error logging branch unreachable. -/
theorem C7_error_unreachable :
    (∀ (env : Env) (tid : Nat) (r : Verdict),
      (_check_SMM_Code_Chk_En env tid).1 = Except.ok r → r ≠ Verdict.Error) ∧
    (∀ (env : Env) (rs : List Verdict),
      (collectResults env env.threadCount).1 = Except.ok rs →
      allEqFirst rs = true → rs.head? ≠ some Verdict.Error) := by
  constructor
  · exact eval_result_ne_error
  · intro env rs hok _ hhead
    cases rs with
    | nil => exact Option.noConfusion hhead
    | cons r0 rest =>
      have hr0 : r0 = Verdict.Error := by simpa using hhead
      subst hr0
      rcases collect_mem env env.threadCount _ hok Verdict.Error
        (List.mem_cons_self _ _) with ⟨t, _, hev⟩
      exact eval_result_ne_error env t _ hev rfl

/-- C7 witness: Passed is not Error, and a concrete unanimous collection has a
non-Error first entry. -/
theorem C7_witness :
    Verdict.Passed ≠ Verdict.Error ∧
    [Verdict.Passed, Verdict.Passed].head? ≠ some Verdict.Error :=
  ⟨C7_error_unreachable.1 envAllPass 0 Verdict.Passed rfl,
   C7_error_unreachable.2 envAllPass [Verdict.Passed, Verdict.Passed] rfl rfl⟩

/-- C8: with zero threads the unanimity check over the empty collection passes
vacuously and the aggregation raises an IndexError on `results[0]` — it returns
no Verdict and no access violation; conversely any Verdict-returning outcome
requires at least one thread. -/
theorem C8_zero_threads :
    (∀ env : Env, env.threadCount = 0 →
      allEqFirst [] = true ∧
      check_SMM_Code_Chk_En env = (Except.error Fatal.indexError, [])) ∧
    (∀ (env : Env) (v : Verdict),
      (check_SMM_Code_Chk_En env).1 = Except.ok v → 1 ≤ env.threadCount) := by
  have hzero : ∀ env : Env, env.threadCount = 0 →
      check_SMM_Code_Chk_En env = (Except.error Fatal.indexError, []) := by
    intro env h0
    unfold check_SMM_Code_Chk_En
    rw [h0]
    rfl
  constructor
  · intro env h0
    exact ⟨rfl, hzero env h0⟩
  · intro env v hv
    rcases Nat.eq_zero_or_pos env.threadCount with h0 | h0
    · rw [hzero env h0] at hv
      exact absurd hv (by simp)
    · exact h0

/-- C8 witness: the zero-thread environment raises IndexError; a two-thread
environment yielding a Verdict indeed has at least one thread. -/
theorem C8_witness :
    (allEqFirst [] = true ∧
      check_SMM_Code_Chk_En envZero = (Except.error Fatal.indexError, [])) ∧
    1 ≤ envAllPass.threadCount :=
  ⟨C8_zero_threads.1 envZero rfl, C8_zero_threads.2 envAllPass Verdict.Passed rfl⟩

/-- C9: the aggregation (and the whole run) is a function of the thread count,
the register contents and the field decoding alone: two environments agreeing
on those produce identical results, so two calls on fixed register values
return the same Verdict. -/
theorem C9_deterministic (e1 e2 : Env)
    (hN : e1.threadCount = e2.threadCount)
    (hr : ∀ name t, e1.readRegister name t = e2.readRegister name t)
    (hf : ∀ name v f, e1.getField name v f = e2.getField name v f) :
    check_SMM_Code_Chk_En e1 = check_SMM_Code_Chk_En e2 ∧
    runModule e1 = runModule e2 := by
  have he : e1 = e2 := by
    obtain ⟨n1, r1, f1⟩ := e1
    obtain ⟨n2, r2, f2⟩ := e2
    have hr' : r1 = r2 := funext fun a => funext fun b => hr a b
    have hf' : f1 = f2 := funext fun a => funext fun b => funext fun c => hf a b c
    have hN' : n1 = n2 := hN
    subst hr' hf' hN'
    rfl
  rw [he]
  exact ⟨rfl, rfl⟩

/-- C9 witness: two syntactically different environments with the same register
values give identical outcomes. -/
theorem C9_witness :
    check_SMM_Code_Chk_En envAllPass = check_SMM_Code_Chk_En envAllPassAlt ∧
    runModule envAllPass = runModule envAllPassAlt :=
  C9_deterministic envAllPass envAllPassAlt rfl
    (by intro name t; simp [envAllPass, envAllPassAlt]) (fun _ _ _ => rfl)

/-- C10: the gate's probe performs exactly one read, on thread 0; in a
supported run with at least one thread the module reads thread 0's register
twice in total (once in the gate, once in the aggregation). -/
theorem C10_double_read_thread_zero (env : Env) (v : Nat)
    (hsup : env.readRegister "MSR_SMM_FEATURE_CONTROL" defaultThread = some v)
    (hN : 1 ≤ env.threadCount) :
    (is_supported env).2 = [defaultThread] ∧
    (runModule env).2 = defaultThread :: (check_SMM_Code_Chk_En env).2 ∧
    List.count defaultThread (runModule env).2 = 2 := by
  have hgate : is_supported env = ((true, none), [defaultThread]) := by
    simp [is_supported, hsup]
  have hrun : runModule env =
      ((check_SMM_Code_Chk_En env).1,
        defaultThread :: (check_SMM_Code_Chk_En env).2) := by
    unfold runModule
    rw [hgate]
    rfl
  refine ⟨by rw [hgate], by rw [hrun], ?_⟩
  rw [hrun]
  rcases collect_trace_shape env env.threadCount with ⟨m, _, htr, hpos, _⟩
  have hm : 0 < m := hpos hN
  have hc : (check_SMM_Code_Chk_En env).2 = List.range m := by
    rw [check_trace_eq, htr]
  have h1 : List.count 0 (List.range m) = 1 :=
    List.count_eq_one_of_mem (List.nodup_range _)
      (List.mem_range.mpr hm)
  simp [hc, List.count_cons, h1, defaultThread]

/-- C10 witness: the all-pass run's read trace is [0, 0, 1] — thread 0 read by
the probe and again by the aggregation. -/
theorem C10_witness :
    (is_supported envAllPass).2 = [defaultThread] ∧
    (runModule envAllPass).2 = defaultThread :: (check_SMM_Code_Chk_En envAllPass).2 ∧
    List.count defaultThread (runModule envAllPass).2 = 2 :=
  C10_double_read_thread_zero envAllPass 5 rfl (by decide)
